import Mathlib

/-!
Verification of the pipeline module of the hephaistos repository
(src/python/hephaistos/pipeline.py).

The Python source is shallowly embedded: Python dicts become association
lists in insertion order (updating an existing key keeps its position,
inserting a new key appends), stages hold their parameter fields as such
lists, and the scheduler is a state record transformed by pure functions.
Python values that the embedded code never inspects (parameter values,
user arguments) are either a type parameter `V` or an opaque payload id.
-/

namespace Hephaistos

/-! ## Association lists with Python dict semantics -/

/-- Lookup in an association list: value of the first entry with the key. -/
def pyGet {α : Type} (k : String) : List (String × α) → Option α
  | [] => none
  | (k₂, v) :: rest => if k₂ = k then some v else pyGet k rest

/-- Update the first entry holding key `k` (position preserved, as for a
Python dict whose key already exists); no effect when the key is absent. -/
def pyUpdate {α : Type} (k : String) (v : α) : List (String × α) → List (String × α)
  | [] => []
  | (k₂, v₂) :: rest => if k₂ = k then (k₂, v) :: rest else (k₂, v₂) :: pyUpdate k v rest

/-- Python dict assignment `d[k] = v`: overwrite in place when the key
exists, append otherwise (insertion order semantics). -/
def pySet {α : Type} (d : List (String × α)) (k : String) (v : α) : List (String × α) :=
  if (pyGet k d).isSome then pyUpdate k v d else d ++ [(k, v)]

/-! ## Python string helpers -/

/-- `s.split("__", 1)` on the character list: splits at the leftmost
occurrence of the separator `"__"`; `none` when `"__"` does not occur
(mirrors the `"__" in name` membership test). -/
def splitDunderList : List Char → Option (List Char × List Char)
  | '_' :: '_' :: rest => some ([], rest)
  | c :: rest => (splitDunderList rest).map (fun p => (c :: p.1, p.2))
  | [] => none

/-- `name.split("__", 1)` for `"__" in name`, as used by
`Pipeline.setParams` (pipeline.py:429-430). -/
def splitDunder (s : String) : Option (String × String) :=
  (splitDunderList s.data).map (fun p => (⟨p.1⟩, ⟨p.2⟩))

/-! ## PipelineStage parameter surface (pipeline.py:41-209)

A stage is modelled by its parameter fields in declaration order. The
distinction between ctypes-backed fields and `extra` properties is
dropped: both are name-to-value entries that `setParam` may update (extra
properties backed by arbitrary Python property setters are outside the
embedding). Fields whose name starts with `"_"` are private: they are
settable but excluded from `getParams` (pipeline.py:112-113,132-134). -/

structure Stage (V : Type) where
  fields : List (String × V)
deriving DecidableEq

/-- `name.startswith("_")`: the private-field test of pipeline.py:113. -/
def startsPrivate (s : String) : Bool :=
  match s.data with
  | [] => false
  | c :: _ => c = '_'

/-- `PipelineStage.getParams` (pipeline.py:132-134): all public fields. -/
def Stage.getParams {V : Type} (s : Stage V) : List (String × V) :=
  s.fields.filter (fun p => !startsPrivate p.1)

/-- `PipelineStage.setParam` (pipeline.py:143-153): update the value when
the name is a declared field, ignore the call otherwise. -/
def Stage.setParam {V : Type} (s : Stage V) (name : String) (v : V) : Stage V :=
  if (pyGet name s.fields).isSome then ⟨pyUpdate name v s.fields⟩ else s

/-! ## Pipeline (pipeline.py:348-468) -/

/-- A pipeline as its ordered list of named stages (`_stageList`); the
lookup dict `_stageDict` is recovered through `pyGet` on the names.
Stage objects are assumed unaliased (no Python object shared between two
entries). -/
structure Pipeline (V : Type) where
  stages : List (String × Stage V)
deriving DecidableEq

/-- The key/value pairs generated by the `Pipeline.getParams` dict
comprehension (pipeline.py:416-420), before dict deduplication: every
public field of every stage under the key `stageName ++ "__" ++ name`. -/
def Pipeline.rawParams {V : Type} (p : Pipeline V) : List (String × V) :=
  p.stages.foldr
    (fun e acc => (e.2.getParams.map (fun f => (e.1 ++ "__" ++ f.1, f.2))) ++ acc) []

/-- `Pipeline.getParams` (pipeline.py:411-420): the dict comprehension
over `stageName + "__" + paramName`, built with Python dict insertion
semantics (a repeated key overwrites the earlier value in place). -/
def Pipeline.getParams {V : Type} (p : Pipeline V) : List (String × V) :=
  p.rawParams.foldl (fun d kv => pySet d kv.1 kv.2) []

/-- `self._stageDict[stage].setParam(param, value)` (pipeline.py:434):
the named stage's `setParam`, applied in the stage list (names are
unique after construction, and stage objects are unaliased). -/
def setStageNamed {V : Type} (sname f : String) (v : V) :
    List (String × Stage V) → List (String × Stage V)
  | [] => []
  | e :: rest =>
    (if e.1 = sname then (e.1, e.2.setParam f v) else e) :: setStageNamed sname f v rest

/-- The `for _, stage in self._stageList: stage.setParam(name, value)`
loop of pipeline.py:436-437. -/
def setAllStages {V : Type} (k : String) (v : V) :
    List (String × Stage V) → List (String × Stage V)
  | [] => []
  | e :: rest => (e.1, e.2.setParam k v) :: setAllStages k v rest

/-- One iteration of the `Pipeline.setParams` loop (pipeline.py:428-437)
for a single `name, value` pair. Returns the new pipeline and the number
of warnings emitted. -/
def Pipeline.setParamOne {V : Type} (p : Pipeline V) (k : String) (v : V) :
    Pipeline V × Nat :=
  match splitDunder k with
  | some (sname, f) =>
    if (pyGet sname p.stages).isSome then
      (⟨setStageNamed sname f v p.stages⟩, 0)
    else
      (p, 1)
  | none => (⟨setAllStages k v p.stages⟩, 0)

/-- `Pipeline.setParams` (pipeline.py:422-437): fold of `setParamOne`
over the given parameter dict in insertion order, counting warnings. -/
def Pipeline.setParams {V : Type} (p : Pipeline V) (params : List (String × V)) :
    Pipeline V × Nat :=
  params.foldl (fun acc kv =>
    let r := acc.1.setParamOne kv.1 kv.2
    (r.1, acc.2 + r.2)) (p, 0)

/-- Observable value of field `f` of the stage named `sname`. -/
def Pipeline.valueOf {V : Type} (p : Pipeline V) (sname f : String) : Option V :=
  (pyGet sname p.stages).bind (fun s => pyGet f s.fields)

/-! ## Stage name assignment in `Pipeline.__init__` (pipeline.py:374-387)

The constructor walks the `(name, stage)` pairs keeping a counter dict
`name_counter`. On a collision it increments the counter and rebinds
`name = f"stage.name{name_counter}"` - note that the source interpolates
the WHOLE counter dict into the f-string, not the count. The repr of a
Python dict of str keys and int values is reproduced verbatim. -/

/-- `str(d)` for a Python `dict[str, int]`:
keys in single quotes, entries joined by a comma and space, braces. -/
def pyDictRepr (d : List (String × Nat)) : String :=
  "\x7b" ++ String.intercalate ", "
    (d.map (fun kv => "\x27" ++ kv.1 ++ "\x27: " ++ toString kv.2)) ++ "\x7d"

/-- The naming loop of `Pipeline.__init__` (pipeline.py:377-384). Input
entries are `(givenName, stageDefaultName)` pairs - for a bare stage the
two components coincide; the second argument is the running
`name_counter` dict. Returns the assigned names in order. -/
def assignNames : List (String × String) → List (String × Nat) → List String
  | [], _ => []
  | e :: rest, counter =>
    match pyGet e.1 counter with
    | some c =>
      let counter₂ := pyUpdate e.1 (c + 1) counter
      (e.2 ++ pyDictRepr counter₂) :: assignNames rest counter₂
    | none => e.1 :: assignNames rest (counter ++ [(e.1, 1)])

/-! ## Tasks and their unpacking (pipeline.py:569-604)

A task is a Python object: a params dict, a tuple, or anything else.
The scheduler never inspects the contents of a params dict, so a dict is
carried as an opaque payload id. Tuple members are strings, dicts or
other objects. -/

/-- A Python value appearing as a tuple member of a task. -/
inductive Obj where
  | str : String → Obj
  | dict : Nat → Obj
  | raw : Nat → Obj
deriving DecidableEq

/-- A Python object passed to `PipelineScheduler.schedule` as one task. -/
inductive TaskObj where
  | dict : Nat → TaskObj
  | tup : List Obj → TaskObj
  | raw : Nat → TaskObj
deriving DecidableEq

/-- `_unpackTask` (pipeline.py:586-604): returns
`(pipeline name, params payload, user args)`, or `none` for the
`ValueError` raised when no accepted shape matches. -/
def unpackTask : TaskObj → Option (String × Nat × Option Obj)
  | .dict d => some ("", d, none)
  | .tup [i1, i2] =>
    match i1 with
    | .str s =>
      match i2 with
      | .dict d => some (s, d, none)
      | _ => none
    | .dict d => some ("", d, some i2)
    | _ => none
  | .tup [i1, i2, i3] =>
    match i1, i2 with
    | .str s, .dict d => some (s, d, some i3)
    | _, _ => none
  | _ => none

/-! ## PipelineScheduler (pipeline.py:626-951) -/

/-- The pipeline argument of the scheduler constructor: a single
`Pipeline` object, or a dict of pipelines represented by its key set. -/
inductive Pipelines where
  | single : Pipelines
  | named : List String → Pipelines
deriving DecidableEq

/-- Operations recorded on a submission builder, in issue order
(pipeline.py:825-839). The pipeline of `run` is named (`""` for the
single-pipeline case). -/
inductive BuildOp where
  | waitGpu : Nat → BuildOp
  | waitUpdate : Nat → BuildOp
  | waitProcess : Nat → BuildOp
  | run : String → Nat → BuildOp
deriving DecidableEq

/-- A submission builder: `beginSequence(pipelineTimeline, start)` plus
the operations chained onto it. -/
structure Builder where
  startValue : Nat
  ops : List BuildOp
deriving DecidableEq

/-- Host-side scheduler state. Queues are lists in FIFO order; the worker
targets mirror `_CounterWorkerThread._target` (pipeline.py:525-531);
`submissions` records each `builder.Submit()`; `pipelineTL` and
`processCount` are the observed pipeline timeline value and process
worker count read by `tasksFinished`. -/
structure Sched where
  destroyed : Bool
  queueSize : Nat
  hasProcessFn : Bool
  totalTasks : Nat
  pipelines : Pipelines
  updateQueue : List (String × Nat)
  userArgs : List (Option Obj)
  updateTarget : Nat
  processTarget : Nat
  submissions : List Builder
  warningCount : Nat
  pipelineTL : Nat
  processCount : Nat
deriving DecidableEq

/-- Result of a `schedule` call: `ok n submission state`, a propagated
`ValueError` from `_unpackTask` (carrying the mutated state), the
`RuntimeError` on a destroyed scheduler, or the `assert builder is not
None` failure (unreachable from `schedule`). -/
inductive SchedResult where
  | ok : Nat → Option Builder → Sched → SchedResult
  | error : Sched → SchedResult
  | destroyedErr : SchedResult
  | assertFail : SchedResult
deriving DecidableEq

/-- Pipeline resolution in the schedule loop (pipeline.py:796-809): for a
single pipeline the task must carry the empty name; for a dict the name
must be a key. `none` means warn and skip. -/
def resolvePipeline : Pipelines → String → Option String
  | .single, nm => if nm = "" then some "" else none
  | .named keys, nm => if nm ∈ keys then some nm else none

/-- The tail of `schedule` after the loop (pipeline.py:845-861): nothing
enqueued returns `(0, None)`; otherwise the builder is submitted and both
worker targets advance by `n`. -/
def finishSchedule (s : Sched) (n : Nat) (b : Option Builder) : SchedResult :=
  if n = 0 then .ok 0 none s
  else
    match b with
    | none => .assertFail
    | some bb =>
      let s₂ := { s with
        submissions := s.submissions ++ [bb],
        updateTarget := s.updateTarget + n }
      let s₃ := if s₂.hasProcessFn then
          { s₂ with processTarget := s₂.processTarget + n } else s₂
      .ok n (some bb) s₃

/-- The task loop of `PipelineScheduler.schedule` (pipeline.py:790-861).
`putOk i` tells whether the i-th `Queue.put` call returns within its
timeout (the queue is drained concurrently, so success is an oracle);
`n` counts tasks accepted in this call, `b` is the lazily created
builder. -/
def scheduleAux (putOk : Nat → Bool) :
    List TaskObj → Sched → Nat → Option Builder → SchedResult
  | [], s, n, b => finishSchedule s n b
  | t :: rest, s, n, b =>
    match unpackTask t with
    | none => .error s
    | some (pipeName, params, args) =>
      match resolvePipeline s.pipelines pipeName with
      | none =>
        scheduleAux putOk rest { s with warningCount := s.warningCount + 1 } n b
      | some pname =>
        if 0 < s.queueSize ∧ s.queueSize < n then finishSchedule s n b
        else if putOk n = false then finishSchedule s n b
        else
          let s₂ := { s with updateQueue := s.updateQueue ++ [(pname, params)] }
          let s₃ := if s₂.hasProcessFn then
              { s₂ with userArgs := s₂.userArgs ++ [args] } else s₂
          let b₀ := b.getD { startValue := s₃.totalTasks, ops := [] }
          let b₁ := { b₀ with ops := b₀.ops ++ [BuildOp.waitGpu s₃.totalTasks] }
          let b₂ := { b₁ with ops := b₁.ops ++ [BuildOp.waitUpdate (s₃.totalTasks + 1)] }
          let b₃ := if s₃.hasProcessFn ∧ 2 ≤ s₃.totalTasks then
              { b₂ with ops := b₂.ops ++ [BuildOp.waitProcess (s₃.totalTasks - 1)] }
            else b₂
          let b₄ := { b₃ with ops := b₃.ops ++ [BuildOp.run pname (s₃.totalTasks % 2)] }
          scheduleAux putOk rest { s₃ with totalTasks := s₃.totalTasks + 1 } (n + 1) (some b₄)

/-- `PipelineScheduler.schedule` (pipeline.py:753-861). -/
def schedule (s : Sched) (putOk : Nat → Bool) (tasks : List TaskObj) : SchedResult :=
  if s.destroyed then .destroyedErr else scheduleAux putOk tasks s 0 none

/-- A sequence of `schedule` calls, each with its own put oracle and task
list; `none` as soon as one call does not return normally, otherwise the
list of returned `nSubmitted` values and the final state. -/
def runCalls : Sched → List ((Nat → Bool) × List TaskObj) → Option (List Nat × Sched)
  | s, [] => some ([], s)
  | s, c :: rest =>
    match schedule s c.1 c.2 with
    | .ok n _ s₂ => (runCalls s₂ rest).map (fun r => (n :: r.1, r.2))
    | _ => none

/-- `PipelineScheduler.tasksFinished` (pipeline.py:720-729). -/
def tasksFinished (s : Sched) : Nat :=
  if s.destroyed then 0
  else if s.hasProcessFn then s.processCount else s.pipelineTL

/-- The timeline waits performed by `PipelineScheduler.wait`
(pipeline.py:863-879), as `(timeline, value)` records. -/
def waitOps (s : Sched) (task : Option Nat) : List (String × Nat) :=
  if s.destroyed then []
  else
    let t := task.getD s.totalTasks
    if s.hasProcessFn then [("process", t)] else [("pipeline", t)]

/-- `PipelineScheduler.waitTimeout` (pipeline.py:881-907): the boolean
returned plus the `(timeline, value)` wait performed; `driverAnswer` is
the boolean the underlying timeline wait would return. -/
def waitTimeoutResult (s : Sched) (task : Option Nat) (driverAnswer : Bool) :
    Bool × List (String × Nat) :=
  if s.destroyed then (true, [])
  else
    let t := task.getD s.totalTasks
    if s.hasProcessFn then (driverAnswer, [("process", t)])
    else (driverAnswer, [("pipeline", t)])

/-! ## Worker bodies (pipeline.py:909-951)

The bodies run on the worker threads with task index `n`. Timeline values
and the warning count live in a small state record; the user-supplied
code reached (`pipeline.update` via `_finishParams`, or `processFn`) is
abstracted by a flag saying whether it raises - the `try`/`except` around
it turns a raise into one warning. -/

structure WorkerState where
  pipelineTL : Nat
  updateTL : Nat
  processTL : Nat
  warningCount : Nat
  waits : List (String × Nat)
deriving DecidableEq

/-- `PipelineScheduler._update` (pipeline.py:909-928): pop the queue, set
params, for `n >= 2` wait on the pipeline timeline at `n-1`, run
`pipeline.update(n % 2)` under `try`/`except`, then unconditionally set
the update timeline to `n+1`. -/
def updateBody (st : WorkerState) (n : Nat) (userRaises : Bool) : WorkerState :=
  let st₂ := if 2 ≤ n then { st with waits := st.waits ++ [("pipeline", n - 1)] } else st
  let st₃ := if userRaises then { st₂ with warningCount := st₂.warningCount + 1 } else st₂
  { st₃ with updateTL := n + 1 }

/-- `PipelineScheduler._process` (pipeline.py:930-951): pop the user
args, wait on the pipeline timeline at `n+1`, run `processFn` under
`try`/`except`, then unconditionally set the process timeline to `n+1`. -/
def processBody (st : WorkerState) (n : Nat) (userRaises : Bool) : WorkerState :=
  let st₂ := { st with waits := st.waits ++ [("pipeline", n + 1)] }
  let st₃ := if userRaises then { st₂ with warningCount := st₂.warningCount + 1 } else st₂
  { st₃ with processTL := n + 1 }

/-! ## DynamicTask (pipeline.py:954-1051) -/

/-- The mutable state of a `DynamicTask`: the `_remaining` batch counter
(a Python int, hence `Int`) and whether `_finishedEvent` is set. -/
structure DynTaskState where
  remaining : Int
  finished : Bool
deriving DecidableEq

/-- `DynamicTask.onBatchFinished` (pipeline.py:1008-1025) where the
user-implemented `processBatch(config)` returned `k`. Returns the new
state, the returned batch count, and whether `onTaskFinished` was
called. -/
def onBatchFinished (st : DynTaskState) (k : Int) : DynTaskState × Int × Bool :=
  let r := st.remaining - 1 + k
  if r = 0 then ({ remaining := r, finished := true }, k, true)
  else ({ st with remaining := r }, k, false)

/-! ## Derived views of the schedule loop -/

/-- The queue entry an accepted task contributes: its resolved pipeline
paired with its params payload; `none` when the task cannot be unpacked
or its pipeline does not resolve. -/
def taskEntry (ps : Pipelines) (t : TaskObj) : Option (String × Nat) :=
  (unpackTask t).bind (fun r => (resolvePipeline ps r.1).map (fun pn => (pn, r.2.1)))

/-- The user-args entry an accepted task contributes. -/
def taskArgs (t : TaskObj) : Option (Option Obj) :=
  (unpackTask t).map (fun r => r.2.2)

/-! ## Concrete sample values -/

/-- A pipeline whose stage names break the `"__"` key encoding: the keys
of stage `"a"` field `"b__f"` and of stage `"a__b"` field `"f"` coincide. -/
def cexPipeline : Pipeline Int :=
  ⟨[("a", ⟨[("b__f", 0)]⟩), ("a__b", ⟨[("f", 1)]⟩)]⟩

/-- First stage of the benign sample pipeline (one private field). -/
def okStageA : Stage Int := ⟨[("f", 3), ("_p", 9)]⟩

/-- Second stage of the benign sample pipeline. -/
def okStageB : Stage Int := ⟨[("g", 4), ("f", 5)]⟩

/-- A benign sample pipeline: distinct stage names without `"__"`. -/
def okPipeline : Pipeline Int := ⟨[("alpha", okStageA), ("beta", okStageB)]⟩

/-- A freshly constructed scheduler over a single pipeline with a
process function, as built by `PipelineScheduler.__init__`
(pipeline.py:664-690). -/
def sampleSched : Sched :=
  { destroyed := false
    queueSize := 0
    hasProcessFn := true
    totalTasks := 0
    pipelines := .single
    updateQueue := []
    userArgs := []
    updateTarget := 0
    processTarget := 0
    submissions := []
    warningCount := 0
    pipelineTL := 0
    processCount := 0 }

/-- The sample scheduler after `destroy()`. -/
def sampleSchedDestroyed : Sched := { sampleSched with destroyed := true }

/-- Two consecutive `schedule` calls on the sample scheduler. -/
def c3Calls : List ((Nat → Bool) × List TaskObj) :=
  [(fun _ => true, [TaskObj.dict 0, TaskObj.dict 1]),
   (fun _ => true, [TaskObj.dict 2])]

/-- The scheduler state after both calls of `c3Calls`. -/
def c3Final : Sched :=
  { destroyed := false
    queueSize := 0
    hasProcessFn := true
    totalTasks := 3
    pipelines := .single
    updateQueue := [("", 0), ("", 1), ("", 2)]
    userArgs := [none, none, none]
    updateTarget := 3
    processTarget := 3
    submissions :=
      [{ startValue := 0
         ops := [BuildOp.waitGpu 0, BuildOp.waitUpdate 1, BuildOp.run "" 0,
                 BuildOp.waitGpu 1, BuildOp.waitUpdate 2, BuildOp.run "" 1] },
       { startValue := 2
         ops := [BuildOp.waitGpu 2, BuildOp.waitUpdate 3,
                 BuildOp.waitProcess 1, BuildOp.run "" 0] }]
    warningCount := 0
    pipelineTL := 0
    processCount := 0 }

/-! # Theorems -/

/-- C2: for every task index `n`, the update worker body advances the
update timeline to `n+1` and the process worker body advances the
process timeline to `n+1`, even when the user-provided code they call
raises; the exception is converted into exactly one warning and the
timeline advance is unconditional. -/
theorem worker_bodies_advance_timelines (st : WorkerState) (n : Nat) (userRaises : Bool) :
    (updateBody st n userRaises).updateTL = n + 1 ∧
    (processBody st n userRaises).processTL = n + 1 ∧
    (updateBody st n true).warningCount = st.warningCount + 1 ∧
    (processBody st n true).warningCount = st.warningCount + 1 := by
  refine ⟨?_, rfl, ?_, rfl⟩ <;> unfold updateBody <;>
    cases userRaises <;> by_cases h : 2 ≤ n <;> simp [h]

/-- C7: on a `DynamicTask` with `batchesRemaining = r > 0` and the
finished event not yet set, `onBatchFinished` where `processBatch`
returns `k` leaves `remaining = r - 1 + k`, returns `k`, and sets the
finished flag and calls `onTaskFinished` exactly when `r - 1 + k = 0`. -/
theorem onBatchFinished_spec (r k : Int) (h : 0 < r) :
    (onBatchFinished ⟨r, false⟩ k).1.remaining = r - 1 + k ∧
    (onBatchFinished ⟨r, false⟩ k).2.1 = k ∧
    ((onBatchFinished ⟨r, false⟩ k).1.finished = true ↔ r - 1 + k = 0) ∧
    ((onBatchFinished ⟨r, false⟩ k).2.2 = true ↔ r - 1 + k = 0) := by
  unfold onBatchFinished
  by_cases h0 : r - 1 + k = 0 <;> simp [h0]

/-- Witness for `onBatchFinished_spec` at `r = 1`, `k = 0`. -/
theorem onBatchFinished_spec_witness :
    (onBatchFinished ⟨1, false⟩ 0).1.remaining = 1 - 1 + 0 ∧
    (onBatchFinished ⟨1, false⟩ 0).2.1 = 0 ∧
    ((onBatchFinished ⟨1, false⟩ 0).1.finished = true ↔ (1 : Int) - 1 + 0 = 0) ∧
    ((onBatchFinished ⟨1, false⟩ 0).2.2 = true ↔ (1 : Int) - 1 + 0 = 0) :=
  onBatchFinished_spec 1 0 (by decide)

/-- C8: once the scheduler is destroyed, `wait` performs no timeline
wait for any task index (given or defaulted), `waitTimeout` returns
`True`, and `tasksFinished` returns `0`. -/
theorem destroyed_scheduler_noop (s : Sched) (t : Nat) (d : Bool)
    (h : s.destroyed = true) :
    waitOps s (some t) = [] ∧ waitOps s none = [] ∧
    (waitTimeoutResult s (some t) d).1 = true ∧
    (waitTimeoutResult s none d).1 = true ∧
    tasksFinished s = 0 := by
  simp [waitOps, waitTimeoutResult, tasksFinished, h]

/-- Witness for `destroyed_scheduler_noop` on the destroyed sample
scheduler at task index `5`. -/
theorem destroyed_scheduler_noop_witness :
    waitOps sampleSchedDestroyed (some 5) = [] ∧
    waitOps sampleSchedDestroyed none = [] ∧
    (waitTimeoutResult sampleSchedDestroyed (some 5) false).1 = true ∧
    (waitTimeoutResult sampleSchedDestroyed none false).1 = true ∧
    tasksFinished sampleSchedDestroyed = 0 :=
  destroyed_scheduler_noop sampleSchedDestroyed 5 false rfl

/-- C4 (code bug): three stages all carrying the default name `"stage"`
are given the names `stage`, `stage{'stage': 2}`, `stage{'stage': 3}` -
the constructor interpolates the whole counter dict into the f-string
(pipeline.py:382), not the per-name count, so the second stage is NOT
named `stage2` as the class docstring (pipeline.py:353-355) states. -/
theorem pipeline_name_collision_eval :
    assignNames [("stage", "stage"), ("stage", "stage"), ("stage", "stage")] [] =
      ["stage", "stage\x7b\x27stage\x27: 2\x7d", "stage\x7b\x27stage\x27: 3\x7d"] ∧
    assignNames [("stage", "stage"), ("stage", "stage"), ("stage", "stage")] [] ≠
      ["stage", "stage2", "stage3"] := by
  refine ⟨by decide, by decide⟩

/-- One accepted task in the schedule loop: with valid unpacking, a
resolving pipeline, free capacity and a successful queue put, the loop
enqueues the task, pushes its user args when a process function exists,
appends its builder operations, and advances to the rest of the tasks. -/
theorem scheduleAux_cons_accept (putOk : Nat → Bool) (t : TaskObj) (rest : List TaskObj)
    (s : Sched) (n : Nat) (b : Option Builder)
    (pipeName : String) (params : Nat) (args : Option Obj) (pname : String)
    (hu : unpackTask t = some (pipeName, params, args))
    (hr : resolvePipeline s.pipelines pipeName = some pname)
    (hcap : ¬(0 < s.queueSize ∧ s.queueSize < n))
    (hput : putOk n = true) :
    scheduleAux putOk (t :: rest) s n b =
      scheduleAux putOk rest
        { s with
          updateQueue := s.updateQueue ++ [(pname, params)],
          userArgs := if s.hasProcessFn then s.userArgs ++ [args] else s.userArgs,
          totalTasks := s.totalTasks + 1 }
        (n + 1)
        (some { startValue := (b.getD { startValue := s.totalTasks, ops := [] }).startValue,
                ops := (b.getD { startValue := s.totalTasks, ops := [] }).ops
                  ++ [BuildOp.waitGpu s.totalTasks, BuildOp.waitUpdate (s.totalTasks + 1)]
                  ++ (if s.hasProcessFn ∧ 2 ≤ s.totalTasks
                      then [BuildOp.waitProcess (s.totalTasks - 1)] else [])
                  ++ [BuildOp.run pname (s.totalTasks % 2)] }) := by
  rw [scheduleAux, hu]
  simp only [hr, if_neg hcap, hput]
  by_cases hp : s.hasProcessFn = true <;>
    by_cases h2 : 2 ≤ s.totalTasks <;>
      simp [hp, h2, List.append_assoc]

/-- C1: every task accepted by `PipelineScheduler.schedule` at task
index `n = totalTasks` makes the submission builder receive, in order, a
wait on the pipeline timeline at `n`, a wait on the update timeline at
`n+1`, a wait on the process timeline at `n-1` exactly when a process
function is set and `n >= 2` (so tasks `0` and `1` never wait on the
process timeline), and then the subroutine for slot `n mod 2`. -/
theorem schedule_accept_builder_ops (putOk : Nat → Bool) (t : TaskObj) (rest : List TaskObj)
    (s : Sched) (n : Nat) (b : Option Builder)
    (pipeName : String) (params : Nat) (args : Option Obj) (pname : String)
    (hu : unpackTask t = some (pipeName, params, args))
    (hr : resolvePipeline s.pipelines pipeName = some pname)
    (hcap : ¬(0 < s.queueSize ∧ s.queueSize < n))
    (hput : putOk n = true) :
    scheduleAux putOk (t :: rest) s n b =
      scheduleAux putOk rest
        { s with
          updateQueue := s.updateQueue ++ [(pname, params)],
          userArgs := if s.hasProcessFn then s.userArgs ++ [args] else s.userArgs,
          totalTasks := s.totalTasks + 1 }
        (n + 1)
        (some { startValue := (b.getD { startValue := s.totalTasks, ops := [] }).startValue,
                ops := (b.getD { startValue := s.totalTasks, ops := [] }).ops
                  ++ [BuildOp.waitGpu s.totalTasks, BuildOp.waitUpdate (s.totalTasks + 1)]
                  ++ (if s.hasProcessFn ∧ 2 ≤ s.totalTasks
                      then [BuildOp.waitProcess (s.totalTasks - 1)] else [])
                  ++ [BuildOp.run pname (s.totalTasks % 2)] }) :=
  scheduleAux_cons_accept putOk t rest s n b pipeName params args pname hu hr hcap hput

/-- Witness for `schedule_accept_builder_ops`: the first task accepted on
the fresh sample scheduler (`n = 0`, no process wait). -/
theorem schedule_accept_builder_ops_witness :
    scheduleAux (fun _ => true) [TaskObj.dict 7] sampleSched 0 none =
      scheduleAux (fun _ => true) []
        { sampleSched with
          updateQueue := sampleSched.updateQueue ++ [("", 7)],
          userArgs := if sampleSched.hasProcessFn then sampleSched.userArgs ++ [none]
                      else sampleSched.userArgs,
          totalTasks := sampleSched.totalTasks + 1 }
        (0 + 1)
        (some { startValue :=
                  ((none : Option Builder).getD
                    { startValue := sampleSched.totalTasks, ops := [] }).startValue,
                ops := ((none : Option Builder).getD
                    { startValue := sampleSched.totalTasks, ops := [] }).ops
                  ++ [BuildOp.waitGpu sampleSched.totalTasks,
                      BuildOp.waitUpdate (sampleSched.totalTasks + 1)]
                  ++ (if sampleSched.hasProcessFn ∧ 2 ≤ sampleSched.totalTasks
                      then [BuildOp.waitProcess (sampleSched.totalTasks - 1)] else [])
                  ++ [BuildOp.run "" (sampleSched.totalTasks % 2)] }) :=
  schedule_accept_builder_ops (fun _ => true) (TaskObj.dict 7) [] sampleSched 0 none
    "" 7 none "" rfl rfl (by decide) rfl

/-- C10: on a scheduler holding a single `Pipeline`, a task carrying any
nonempty pipeline name is skipped with a warning: the schedule loop
continues with the remaining tasks and the only state change is the
warning, so the task contributes nothing to `n_submitted`, the queue, or
`totalTasks`. -/
theorem single_pipeline_skips_named (putOk : Nat → Bool) (t : TaskObj)
    (rest : List TaskObj) (s : Sched) (n : Nat) (b : Option Builder)
    (nm : String) (params : Nat) (args : Option Obj)
    (hu : unpackTask t = some (nm, params, args))
    (hp : s.pipelines = .single) (hn : nm ≠ "") :
    scheduleAux putOk (t :: rest) s n b =
      scheduleAux putOk rest { s with warningCount := s.warningCount + 1 } n b := by
  rw [scheduleAux, hu]
  simp [resolvePipeline, hp, hn]

/-- Witness for `single_pipeline_skips_named`: a task addressed to
pipeline `"p2"` on the single-pipeline sample scheduler. -/
theorem single_pipeline_skips_named_witness :
    scheduleAux (fun _ => true) [TaskObj.tup [Obj.str "p2", Obj.dict 3]] sampleSched 0 none =
      scheduleAux (fun _ => true) []
        { sampleSched with warningCount := sampleSched.warningCount + 1 } 0 none :=
  single_pipeline_skips_named (fun _ => true) (TaskObj.tup [Obj.str "p2", Obj.dict 3])
    [] sampleSched 0 none "p2" 3 none rfl rfl (by decide)

/-- `finishSchedule` returns the accepted count unchanged and never
touches `totalTasks`. -/
theorem finishSchedule_ok (s : Sched) (n : Nat) (b : Option Builder)
    (n₂ : Nat) (sub : Option Builder) (s₂ : Sched)
    (h : finishSchedule s n b = .ok n₂ sub s₂) :
    n₂ = n ∧ s₂.totalTasks = s.totalTasks := by
  unfold finishSchedule at h
  by_cases h0 : n = 0
  · simp [h0] at h
    obtain ⟨h1, _, h3⟩ := h
    exact ⟨by omega, by rw [← h3]⟩
  · simp [h0] at h
    match b, h with
    | some bb, h =>
      simp at h
      by_cases hp : s.hasProcessFn = true <;> simp [hp] at h <;>
        obtain ⟨h1, _, h3⟩ := h <;> exact ⟨h1.symm, by rw [← h3]⟩

/-- Through the schedule loop, `totalTasks` grows by exactly the number
of tasks accepted in the call. -/
theorem scheduleAux_totalTasks (putOk : Nat → Bool) :
    ∀ (tasks : List TaskObj) (s : Sched) (n : Nat) (b : Option Builder)
      (n₂ : Nat) (sub : Option Builder) (s₂ : Sched),
      scheduleAux putOk tasks s n b = .ok n₂ sub s₂ →
      s₂.totalTasks + n = s.totalTasks + n₂
  | [], s, n, b, n₂, sub, s₂, h => by
    obtain ⟨h1, h2⟩ := finishSchedule_ok s n b n₂ sub s₂ h
    omega
  | t :: rest, s, n, b, n₂, sub, s₂, h => by
    rw [scheduleAux] at h
    match hu : unpackTask t with
    | none => rw [hu] at h; exact absurd h (by simp)
    | some (pipeName, params, args) =>
      rw [hu] at h
      simp only [] at h
      match hr : resolvePipeline s.pipelines pipeName with
      | none =>
        rw [hr] at h
        simp only [] at h
        have := scheduleAux_totalTasks putOk rest _ n b n₂ sub s₂ h
        simpa using this
      | some pname =>
        rw [hr] at h
        simp only [] at h
        by_cases hcap : 0 < s.queueSize ∧ s.queueSize < n
        · rw [if_pos hcap] at h
          obtain ⟨h1, h2⟩ := finishSchedule_ok s n b n₂ sub s₂ h
          omega
        · rw [if_neg hcap] at h
          by_cases hput : putOk n = false
          · rw [if_pos hput] at h
            obtain ⟨h1, h2⟩ := finishSchedule_ok s n b n₂ sub s₂ h
            omega
          · rw [if_neg hput] at h
            have := scheduleAux_totalTasks putOk rest _ (n + 1) _ n₂ sub s₂ h
            by_cases hp : s.hasProcessFn = true <;> simp [hp] at this <;> omega

/-- A normally returning `schedule` call advances `totalTasks` by the
returned `nSubmitted`. -/
theorem schedule_totalTasks (s : Sched) (putOk : Nat → Bool) (tasks : List TaskObj)
    (n : Nat) (sub : Option Builder) (s₂ : Sched)
    (h : schedule s putOk tasks = .ok n sub s₂) :
    s₂.totalTasks = s.totalTasks + n := by
  unfold schedule at h
  by_cases hd : s.destroyed = true
  · simp [hd] at h
  · simp [hd] at h
    have := scheduleAux_totalTasks putOk tasks s 0 none n sub s₂ h
    omega

/-- Across a sequence of returning `schedule` calls, `totalTasks` grows
by the sum of the returned counts. -/
theorem runCalls_totalTasks :
    ∀ (calls : List ((Nat → Bool) × List TaskObj)) (s : Sched)
      (ns : List Nat) (s₂ : Sched),
      runCalls s calls = some (ns, s₂) →
      s₂.totalTasks = s.totalTasks + ns.sum
  | [], s, ns, s₂, h => by
    simp [runCalls] at h
    obtain ⟨h1, h2⟩ := h
    subst h1; subst h2; simp
  | c :: rest, s, ns, s₂, h => by
    rw [runCalls] at h
    match hc : schedule s c.1 c.2 with
    | .ok n sub s₁ =>
      rw [hc] at h
      simp only [] at h
      match hrec : runCalls s₁ rest with
      | some (ns₁, sf) =>
        rw [hrec] at h
        simp at h
        obtain ⟨h1, h2⟩ := h
        have ht := schedule_totalTasks s c.1 c.2 n sub s₁ hc
        have htr := runCalls_totalTasks rest s₁ ns₁ sf hrec
        subst h2
        simp [← h1, htr, ht]
        omega
      | none => rw [hrec] at h; simp at h
    | .error s₁ => rw [hc] at h; simp at h
    | .destroyedErr => rw [hc] at h; simp at h
    | .assertFail => rw [hc] at h; simp at h

/-- C3: after any sequence of `schedule` calls has returned on a
scheduler whose `totalTasks` started at `0`, `totalTasks` equals the sum
of the `nSubmitted` values those calls returned. -/
theorem totalTasks_eq_sum_submitted (s : Sched) (calls : List ((Nat → Bool) × List TaskObj))
    (ns : List Nat) (s₂ : Sched)
    (h0 : s.totalTasks = 0) (h : runCalls s calls = some (ns, s₂)) :
    s₂.totalTasks = ns.sum := by
  have := runCalls_totalTasks calls s ns s₂ h
  omega

/-- Witness for `totalTasks_eq_sum_submitted`: two calls submitting two
and one task on the fresh sample scheduler. -/
theorem totalTasks_eq_sum_submitted_witness :
    sampleSched.totalTasks = 0 ∧
    runCalls sampleSched c3Calls = some ([2, 1], c3Final) ∧
    c3Final.totalTasks = [2, 1].sum :=
  ⟨rfl, by decide,
    totalTasks_eq_sum_submitted sampleSched c3Calls [2, 1] c3Final rfl (by decide)⟩

/-- Running the schedule loop on accepted tasks followed by an
un-unpackable task propagates the `ValueError` while keeping the state
mutations made for the accepted prefix. -/
theorem scheduleAux_error_after_accepted (putOk : Nat → Bool) (bad : TaskObj)
    (rest : List TaskObj) (hbad : unpackTask bad = none)
    (hput : ∀ i, putOk i = true) :
    ∀ (pre : List TaskObj) (s : Sched) (n : Nat) (b : Option Builder),
      s.queueSize = 0 →
      (∀ t ∈ pre, (taskEntry s.pipelines t).isSome = true) →
      scheduleAux putOk (pre ++ bad :: rest) s n b =
        .error { s with
          updateQueue := s.updateQueue ++ pre.filterMap (taskEntry s.pipelines),
          userArgs := if s.hasProcessFn then s.userArgs ++ pre.filterMap taskArgs
                      else s.userArgs,
          totalTasks := s.totalTasks + pre.length }
  | [], s, n, b, _, _ => by
    rw [List.nil_append, scheduleAux, hbad]
    simp
  | p :: pre', s, n, b, hq, hpre => by
    have hp := hpre p (by simp)
    match hu : unpackTask p with
    | none => simp [taskEntry, hu] at hp
    | some (nm, params, args) =>
      match hr : resolvePipeline s.pipelines nm with
      | none => simp [taskEntry, hu, hr] at hp
      | some pn =>
        rw [List.cons_append]
        rw [scheduleAux_cons_accept putOk p (pre' ++ bad :: rest) s n b nm params args pn
          hu hr (by omega) (hput n)]
        rw [scheduleAux_error_after_accepted putOk bad rest hbad hput pre'
          { s with
            updateQueue := s.updateQueue ++ [(pn, params)],
            userArgs := if s.hasProcessFn then s.userArgs ++ [args] else s.userArgs,
            totalTasks := s.totalTasks + 1 }
          (n + 1)
          (some { startValue := (b.getD { startValue := s.totalTasks, ops := [] }).startValue,
                  ops := (b.getD { startValue := s.totalTasks, ops := [] }).ops
                    ++ [BuildOp.waitGpu s.totalTasks, BuildOp.waitUpdate (s.totalTasks + 1)]
                    ++ (if s.hasProcessFn ∧ 2 ≤ s.totalTasks
                        then [BuildOp.waitProcess (s.totalTasks - 1)] else [])
                    ++ [BuildOp.run pn (s.totalTasks % 2)] })
          (by simp [hq]) (fun t ht => hpre t (by simp [ht]))]
        have hte : taskEntry s.pipelines p = some (pn, params) := by
          simp [taskEntry, hu, hr]
        have hta : taskArgs p = some args := by simp [taskArgs, hu]
        by_cases hpf : s.hasProcessFn = true <;>
          simp [hpf, hte, hta, List.filterMap_cons] <;>
          omega

/-- C9: a task that fails to unpack makes `schedule` raise `ValueError`
without submitting and without advancing either worker target, while the
tasks accepted earlier in the same call stay on the update queue and
`totalTasks` keeps their increments - the `submissions`, `updateTarget`
and `processTarget` fields of the error state are those of the input
state, untouched. -/
theorem schedule_invalid_task_raises (s : Sched) (putOk : Nat → Bool)
    (pre : List TaskObj) (bad : TaskObj) (rest : List TaskObj)
    (hd : s.destroyed = false) (hq : s.queueSize = 0)
    (hput : ∀ i, putOk i = true)
    (hpre : ∀ t ∈ pre, (taskEntry s.pipelines t).isSome = true)
    (hbad : unpackTask bad = none) :
    schedule s putOk (pre ++ bad :: rest) =
      .error { s with
        updateQueue := s.updateQueue ++ pre.filterMap (taskEntry s.pipelines),
        userArgs := if s.hasProcessFn then s.userArgs ++ pre.filterMap taskArgs
                    else s.userArgs,
        totalTasks := s.totalTasks + pre.length } := by
  rw [schedule, if_neg (by simp [hd])]
  exact scheduleAux_error_after_accepted putOk bad rest hbad hput pre s 0 none hq hpre

/-- Witness for `schedule_invalid_task_raises`: one accepted task
followed by an empty tuple on the fresh sample scheduler. -/
theorem schedule_invalid_task_raises_witness :
    schedule sampleSched (fun _ => true) ([TaskObj.dict 0] ++ TaskObj.tup [] :: []) =
      .error { sampleSched with
        updateQueue := sampleSched.updateQueue
          ++ [TaskObj.dict 0].filterMap (taskEntry sampleSched.pipelines),
        userArgs := if sampleSched.hasProcessFn then
            sampleSched.userArgs ++ [TaskObj.dict 0].filterMap taskArgs
          else sampleSched.userArgs,
        totalTasks := sampleSched.totalTasks + [TaskObj.dict 0].length } :=
  schedule_invalid_task_raises sampleSched (fun _ => true) [TaskObj.dict 0]
    (TaskObj.tup []) [] rfl rfl (fun _ => rfl) (by decide) rfl

/-! ## Association list lemmas -/

theorem pyGet_of_mem_nodup {α : Type} {l : List (String × α)} {e : String × α}
    (hnd : (l.map Prod.fst).Nodup) (he : e ∈ l) : pyGet e.1 l = some e.2 := by
  induction l with
  | nil => cases he
  | cons hd tl ih =>
    rcases List.mem_cons.mp he with he | he
    · subst he; simp [pyGet]
    · rw [pyGet]
      have hne : hd.1 ≠ e.1 := by
        intro hcontra
        have : e.1 ∈ tl.map Prod.fst := List.mem_map_of_mem Prod.fst he
        rw [← hcontra] at this
        exact (List.nodup_cons.mp hnd).1 this
      rw [if_neg hne]
      exact ih (List.nodup_cons.mp hnd).2 he

theorem pyUpdate_self {α : Type} {l : List (String × α)} {k : String} {v : α}
    (h : pyGet k l = some v) : pyUpdate k v l = l := by
  induction l with
  | nil => rfl
  | cons hd tl ih =>
    rw [pyGet] at h
    rw [pyUpdate]
    by_cases he : hd.1 = k
    · rw [if_pos he] at h
      rw [if_pos he]
      obtain ⟨k₁, v₁⟩ := hd
      simp at h
      simp [h]
    · rw [if_neg he] at h
      rw [if_neg he, ih h]

theorem pyGet_pyUpdate_self {α : Type} {l : List (String × α)} {k : String} {v : α}
    (h : (pyGet k l).isSome = true) : pyGet k (pyUpdate k v l) = some v := by
  induction l with
  | nil => simp [pyGet] at h
  | cons hd tl ih =>
    rw [pyGet] at h
    rw [pyUpdate]
    by_cases he : hd.1 = k
    · rw [if_pos he]; simp [pyGet, he]
    · rw [if_neg he] at h
      rw [if_neg he, pyGet, if_neg he]
      exact ih h

theorem mem_pyUpdate {α : Type} {l : List (String × α)} {k : String} {v : α}
    {e : String × α} (he : e ∈ pyUpdate k v l) : e ∈ l ∨ e = (k, v) := by
  induction l with
  | nil => cases he
  | cons hd tl ih =>
    rw [pyUpdate] at he
    by_cases hk : hd.1 = k
    · rw [if_pos hk] at he
      rcases List.mem_cons.mp he with he | he
      · right; rw [he, hk]
      · left; exact List.mem_cons_of_mem hd he
    · rw [if_neg hk] at he
      rcases List.mem_cons.mp he with he | he
      · left; rw [he]; exact List.mem_cons_self hd tl
      · rcases ih he with h | h
        · left; exact List.mem_cons_of_mem hd h
        · right; exact h

theorem mem_pySet {α : Type} {d : List (String × α)} {k : String} {v : α}
    {e : String × α} (he : e ∈ pySet d k v) : e ∈ d ∨ e = (k, v) := by
  rw [pySet] at he
  by_cases hs : (pyGet k d).isSome = true
  · rw [if_pos hs] at he
    exact mem_pyUpdate he
  · rw [if_neg hs] at he
    rcases List.mem_append.mp he with h | h
    · left; exact h
    · right; simpa using h

theorem mem_foldl_pySet {α : Type} :
    ∀ (L : List (String × α)) (acc : List (String × α)) (e : String × α),
      e ∈ List.foldl (fun d kv => pySet d kv.1 kv.2) acc L → e ∈ acc ∨ e ∈ L
  | [], acc, e, he => by simpa using he
  | kv :: L, acc, e, he => by
    rw [List.foldl_cons] at he
    rcases mem_foldl_pySet L (pySet acc kv.1 kv.2) e he with h | h
    · rcases mem_pySet h with h₂ | h₂
      · left; exact h₂
      · right; rw [h₂]; exact List.mem_cons_self kv L
    · right; exact List.mem_cons_of_mem kv h

theorem pyMapCongrId {α β : Type} :
    ∀ (l : List (α × β)) (f : α × β → α × β), (∀ e ∈ l, f e = e) → l.map f = l
  | [], _, _ => rfl
  | e :: l, f, h => by
    rw [List.map_cons, h e (List.mem_cons_self e l),
      pyMapCongrId l f (fun x hx => h x (List.mem_cons_of_mem e hx))]

theorem mem_rawParams {V : Type} {p : Pipeline V} {e : String × V}
    (he : e ∈ p.rawParams) :
    ∃ se ∈ p.stages, ∃ fe ∈ se.2.getParams, e = (se.1 ++ "__" ++ fe.1, fe.2) := by
  obtain ⟨stages⟩ := p
  rw [Pipeline.rawParams] at he
  simp only [] at he
  induction stages with
  | nil => cases he
  | cons hd tl ih =>
    rw [List.foldr_cons] at he
    rcases List.mem_append.mp he with h | h
    · obtain ⟨fe, hfe, hmap⟩ := List.mem_map.mp h
      exact ⟨hd, List.mem_cons_self hd tl, fe, hfe, hmap.symm⟩
    · obtain ⟨se, hse, rest⟩ := ih h
      exact ⟨se, List.mem_cons_of_mem hd hse, rest⟩

theorem pyGet_setStageNamed_self {V : Type} (sname f : String) (v : V)
    (l : List (String × Stage V)) :
    pyGet sname (setStageNamed sname f v l) =
      (pyGet sname l).map (fun st => st.setParam f v) := by
  induction l with
  | nil => rfl
  | cons hd tl ih =>
    obtain ⟨k₁, st⟩ := hd
    rw [setStageNamed]
    by_cases hks : k₁ = sname
    · rw [if_pos hks, pyGet, pyGet]
      simp only []
      rw [if_pos hks, if_pos hks]
      rfl
    · rw [if_neg hks, pyGet, pyGet]
      rw [if_neg hks, if_neg hks, ih]

theorem pyGet_setStageNamed_other {V : Type} (sname f : String) (v : V)
    (sn : String) (hne : sn ≠ sname) (l : List (String × Stage V)) :
    pyGet sn (setStageNamed sname f v l) = pyGet sn l := by
  induction l with
  | nil => rfl
  | cons hd tl ih =>
    obtain ⟨k₁, st⟩ := hd
    rw [setStageNamed]
    by_cases hks : k₁ = sname
    · have hk : ¬k₁ = sn := by rw [hks]; exact fun h => hne h.symm
      rw [if_pos hks, pyGet, pyGet]
      simp only []
      rw [if_neg hk, if_neg hk, ih]
    · rw [if_neg hks, pyGet, pyGet]
      by_cases hk : k₁ = sn
      · rw [if_pos hk, if_pos hk]
      · rw [if_neg hk, if_neg hk, ih]

theorem pyGet_setAllStages {V : Type} (k : String) (v : V)
    (sn : String) (l : List (String × Stage V)) :
    pyGet sn (setAllStages k v l) = (pyGet sn l).map (fun st => st.setParam k v) := by
  induction l with
  | nil => rfl
  | cons hd tl ih =>
    obtain ⟨k₁, st⟩ := hd
    rw [setAllStages, pyGet, pyGet]
    simp only []
    by_cases hk : k₁ = sn
    · rw [if_pos hk, if_pos hk]
      rfl
    · rw [if_neg hk, if_neg hk, ih]

theorem setStageNamed_congr_id {V : Type} (sname f : String) (v : V) :
    ∀ (l : List (String × Stage V)),
      (∀ e ∈ l, e.1 = sname → e.2.setParam f v = e.2) → setStageNamed sname f v l = l
  | [], _ => rfl
  | e :: rest, h => by
    rw [setStageNamed]
    by_cases hks : e.1 = sname
    · rw [if_pos hks, h e (List.mem_cons_self e rest) hks,
        setStageNamed_congr_id sname f v rest
          (fun x hx => h x (List.mem_cons_of_mem e hx))]
    · rw [if_neg hks,
        setStageNamed_congr_id sname f v rest
          (fun x hx => h x (List.mem_cons_of_mem e hx))]

/-- C6: routing of one `setParams` key. A key containing `"__"` is split
once into `(stage, field)`: when the stage exists its entry becomes
`setParam field value` (set when declared, ignored when not) and every
other stage is untouched, with no warning; when the stage does not exist
one warning is emitted and the pipeline is unchanged. A key without
`"__"` goes through `setParam` on every stage, which sets stages that
declare the field and silently skips the others. -/
theorem setParams_key_routing {V : Type} [DecidableEq V] (p : Pipeline V)
    (k : String) (v : V) :
    (∀ sn f σ, splitDunder k = some (sn, f) → pyGet sn p.stages = some σ →
      (p.setParamOne k v).2 = 0 ∧
      pyGet sn (p.setParamOne k v).1.stages = some (σ.setParam f v) ∧
      (∀ sn₂, sn₂ ≠ sn → pyGet sn₂ (p.setParamOne k v).1.stages = pyGet sn₂ p.stages)) ∧
    (∀ sn f, splitDunder k = some (sn, f) → pyGet sn p.stages = none →
      p.setParamOne k v = (p, 1)) ∧
    (splitDunder k = none →
      (p.setParamOne k v).2 = 0 ∧
      (∀ sn σ, pyGet sn p.stages = some σ →
        pyGet sn (p.setParamOne k v).1.stages = some (σ.setParam k v))) ∧
    (∀ (σ : Stage V) (f : String) (w : V),
      (pyGet f σ.fields = none → σ.setParam f w = σ) ∧
      ((pyGet f σ.fields).isSome = true →
        pyGet f (σ.setParam f w).fields = some w)) := by
  refine ⟨?_, ?_, ?_, ?_⟩
  · intro sn f σ hsp hσ
    rw [Pipeline.setParamOne, hsp]
    simp only []
    rw [if_pos (by rw [hσ]; rfl)]
    refine ⟨rfl, ?_, ?_⟩
    · rw [pyGet_setStageNamed_self sn f v p.stages, hσ]
      rfl
    · intro sn₂ hne
      rw [pyGet_setStageNamed_other sn f v sn₂ hne p.stages]
  · intro sn f hsp hσ
    rw [Pipeline.setParamOne, hsp]
    simp only []
    rw [if_neg (by rw [hσ]; simp)]
  · intro hsp
    rw [Pipeline.setParamOne, hsp]
    refine ⟨rfl, ?_⟩
    intro sn σ hσ
    rw [pyGet_setAllStages k v sn p.stages, hσ]
    rfl
  · intro σ f w
    constructor
    · intro hnone
      rw [Stage.setParam, if_neg (by rw [hnone]; simp)]
    · intro hsome
      rw [Stage.setParam, if_pos hsome]
      exact pyGet_pyUpdate_self hsome

/-- Witness for `setParams_key_routing`: the key `"alpha__f"` with value
`7` on the benign sample pipeline updates stage `"alpha"` and leaves
stage `"beta"` alone. -/
theorem setParams_key_routing_witness :
    splitDunder "alpha__f" = some ("alpha", "f") ∧
    pyGet "alpha" okPipeline.stages = some okStageA ∧
    (okPipeline.setParamOne "alpha__f" (7 : Int)).2 = 0 ∧
    pyGet "alpha" (okPipeline.setParamOne "alpha__f" (7 : Int)).1.stages =
      some (okStageA.setParam "f" 7) ∧
    pyGet "beta" (okPipeline.setParamOne "alpha__f" (7 : Int)).1.stages =
      pyGet "beta" okPipeline.stages :=
  ⟨by decide, by decide,
    ((setParams_key_routing okPipeline "alpha__f" 7).1 "alpha" "f" okStageA
      (by decide) (by decide)).1,
    ((setParams_key_routing okPipeline "alpha__f" 7).1 "alpha" "f" okStageA
      (by decide) (by decide)).2.1,
    ((setParams_key_routing okPipeline "alpha__f" 7).1 "alpha" "f" okStageA
      (by decide) (by decide)).2.2 "beta" (by decide)⟩

/-- C5 counterexample: on `cexPipeline`, whose stage name `"a__b"`
contains `"__"`, the round trip `setParams(getParams())` rewrites stage
`"a"`'s field `"b__f"` from `0` to `1`: it is not a no-op. -/
theorem setParams_getParams_roundtrip_cex :
    (cexPipeline.setParams cexPipeline.getParams).1.valueOf "a" "b__f" = some 1 ∧
    cexPipeline.valueOf "a" "b__f" = some 0 ∧
    (cexPipeline.setParams cexPipeline.getParams).1 ≠ cexPipeline := by
  refine ⟨rfl, rfl, fun h => ?_⟩
  have h1 : (cexPipeline.setParams cexPipeline.getParams).1.valueOf "a" "b__f" =
      some 1 := rfl
  rw [h] at h1
  have h0 : cexPipeline.valueOf "a" "b__f" = some 0 := rfl
  rw [h0] at h1
  exact absurd h1 (by decide)

/-- One `setParams` key whose split routes back to an existing stage and
field holding exactly the carried value leaves the pipeline unchanged. -/
theorem setParamOne_id {V : Type} [DecidableEq V] (p : Pipeline V)
    (hnames : (p.stages.map Prod.fst).Nodup)
    (k : String) (v : V) (sn f : String) (σ : Stage V)
    (hsp : splitDunder k = some (sn, f))
    (hσ : pyGet sn p.stages = some σ)
    (hv : pyGet f σ.fields = some v) :
    p.setParamOne k v = (p, 0) := by
  rw [Pipeline.setParamOne, hsp]
  simp only []
  rw [if_pos (by rw [hσ]; rfl)]
  refine Prod.ext ?_ rfl
  simp only []
  refine congrArg Pipeline.mk ?_
  refine setStageNamed_congr_id sn f v p.stages (fun e he heq => ?_)
  have hget := pyGet_of_mem_nodup hnames he
  rw [heq, hσ] at hget
  have hσe : σ = e.2 := by injection hget
  subst hσe
  rw [Stage.setParam, if_pos (by rw [hv]; rfl), pyUpdate_self hv]

/-- The `setParams` fold keeps the pipeline fixed when every supplied
key routes back to an existing stage and field holding the carried
value. -/
theorem setParams_foldl_id {V : Type} [DecidableEq V] (p : Pipeline V)
    (hnames : (p.stages.map Prod.fst).Nodup) :
    ∀ (L : List (String × V)) (w : Nat),
      (∀ kv ∈ L, ∃ sn f σ, splitDunder kv.1 = some (sn, f) ∧
        pyGet sn p.stages = some σ ∧ pyGet f σ.fields = some kv.2) →
      (List.foldl (fun acc kv =>
        let r := acc.1.setParamOne kv.1 kv.2
        (r.1, acc.2 + r.2)) (p, w) L).1 = p
  | [], w, _ => rfl
  | kv :: L, w, hinv => by
    rw [List.foldl_cons]
    obtain ⟨sn, f, σ, hsp, hσ, hv⟩ := hinv kv (List.mem_cons_self kv L)
    have hid := setParamOne_id p hnames kv.1 kv.2 sn f σ hsp hσ hv
    simp only [hid]
    exact setParams_foldl_id p hnames L (w + 0)
      (fun kv₂ h => hinv kv₂ (List.mem_cons_of_mem kv h))

/-- C5 (amended): for a pipeline with pairwise distinct stage names,
pairwise distinct field names within each stage, and stage/field names
whose combined key `stage ++ "__" ++ field` splits at its first `"__"`
back into the pair (in particular whenever no stage name contains
`"__"`), applying `setParams` to the dict returned by `getParams` leaves
every stage unchanged. -/
theorem setParams_getParams_noop {V : Type} [DecidableEq V] (p : Pipeline V)
    (hnames : (p.stages.map Prod.fst).Nodup)
    (hfields : ∀ e ∈ p.stages, (e.2.fields.map Prod.fst).Nodup)
    (hsplit : ∀ se ∈ p.stages, ∀ fe ∈ se.2.getParams,
      splitDunder (se.1 ++ "__" ++ fe.1) = some (se.1, fe.1)) :
    (p.setParams p.getParams).1 = p := by
  rw [Pipeline.setParams]
  refine setParams_foldl_id p hnames p.getParams 0 (fun kv hkv => ?_)
  have hraw : kv ∈ p.rawParams := by
    rcases mem_foldl_pySet p.rawParams [] kv hkv with h | h
    · cases h
    · exact h
  obtain ⟨se, hse, fe, hfe, heq⟩ := mem_rawParams hraw
  subst heq
  refine ⟨se.1, fe.1, se.2, hsplit se hse fe hfe,
    pyGet_of_mem_nodup hnames hse, ?_⟩
  have hmem : fe ∈ se.2.fields := List.mem_of_mem_filter hfe
  exact pyGet_of_mem_nodup (hfields se hse) hmem

/-- Witness for `setParams_getParams_noop` on the benign sample
pipeline. -/
theorem setParams_getParams_noop_witness :
    (okPipeline.stages.map Prod.fst).Nodup ∧
    (∀ e ∈ okPipeline.stages, (e.2.fields.map Prod.fst).Nodup) ∧
    (∀ se ∈ okPipeline.stages, ∀ fe ∈ se.2.getParams,
      splitDunder (se.1 ++ "__" ++ fe.1) = some (se.1, fe.1)) ∧
    (okPipeline.setParams okPipeline.getParams).1 = okPipeline :=
  ⟨by decide, by decide, by decide,
    setParams_getParams_noop okPipeline (by decide) (by decide) (by decide)⟩

end Hephaistos
